import Mathlib

/-!
Shallow embedding of `src/esp32/main.cpp` (NoiseBuster's ESP32 PWM-to-serial
converter).

The program keeps four `unsigned long` (32-bit on the ESP32) variables:
`highTime`, `lowTime`, `lastTransitionTime` (globals, microsecond units) and
`lastPrintTime` (a `static` local of `loop`, millisecond units).
`handleInterrupt` runs on every pin edge and attributes the time since the
previous edge to one of the accumulators; `loop` emits a scaled duty-cycle
reading every 250 ms and resets the accumulators.

Machine integers are modelled as `Nat` with explicit reduction modulo `2^32`;
the C `float` computation of line 43-44 is modelled in exact rational
arithmetic (`ℚ`), matching the numeric claims, which are stated as exact
arithmetic.  `loop` reads `millis()` twice (lines 39 and 40), so its embedding
takes the two clock readings as separate arguments `t1` and `t2`.
-/

/-- `2^32`: the modulus of `unsigned long` arithmetic on the ESP32 target. -/
def w32 : Nat := 4294967296

/-- Wrapping unsigned 32-bit subtraction `a - b`. -/
def sub32 (a b : Nat) : Nat := (w32 + a % w32 - b % w32) % w32

/-- Wrapping unsigned 32-bit addition `a + b`. -/
def add32 (a b : Nat) : Nat := (a % w32 + b % w32) % w32

/-- The mutable state of the program: the three globals of lines 8-10 plus the
`static` local `lastPrintTime` of line 38. -/
@[ext] structure State where
  highTime : Nat
  lowTime : Nat
  lastTransitionTime : Nat
  lastPrintTime : Nat
deriving DecidableEq

/-- All four variables start at zero (lines 8-10 and 38). -/
def initialState : State := ⟨0, 0, 0, 0⟩

/-- Embedding of `handleInterrupt` (lines 12-27).  `pinHigh` is the value of
`digitalRead(pwmPin) == HIGH`, `currentTime` the `micros()` reading. -/
def handleInterrupt (pinHigh : Bool) (currentTime : Nat) (s : State) : State :=
  let t := currentTime % w32
  let timeSinceLastTransition := sub32 t s.lastTransitionTime
  if pinHigh then
    { s with lowTime := add32 s.lowTime timeSinceLastTransition,
             lastTransitionTime := t }
  else
    { s with highTime := add32 s.highTime timeSinceLastTransition,
             lastTransitionTime := t }

/-- Embedding of one execution of the body of `loop` (lines 36-49).
`t1` is the `millis()` reading of the comparison on line 39 and `t2` the
separate `millis()` reading stored into `lastPrintTime` on line 40.  The
optional rational is the value printed on line 44, if any. -/
def loopStep (t1 t2 : Nat) (s : State) : State × Option ℚ :=
  if 250 ≤ sub32 t1 s.lastPrintTime then
    let totalTime := add32 s.highTime s.lowTime
    let out : Option ℚ :=
      if 0 < totalTime then
        some (((s.highTime % w32 : Nat) : ℚ) / ((totalTime : Nat) : ℚ) * 100 * (33 / 10))
      else none
    ({ s with lastPrintTime := t2 % w32, highTime := 0, lowTime := 0 }, out)
  else (s, none)

/-- An event of the sequential (non-preempted) model: an interrupt invocation,
or one iteration of `loop` with its two `millis()` readings. -/
inductive Ev where
  | irq (pinHigh : Bool) (t : Nat)
  | tick (t1 t2 : Nat)
deriving DecidableEq

/-- One event of the sequential model applied to the state, together with the
line emitted by that event, if any. -/
def step (s : State) : Ev → State × Option ℚ
  | .irq pinHigh t => (handleInterrupt pinHigh t s, none)
  | .tick t1 t2 => loopStep t1 t2 s

/-- Run a sequence of events, collecting every emitted line in order. -/
def run (s : State) : List Ev → State × List ℚ
  | [] => (s, [])
  | e :: es =>
    let r := step s e
    let rest := run r.1 es
    (rest.1, r.2.toList ++ rest.2)

/-- Run a sequence of interrupts described by inter-transition delays: each
entry `(pinHigh, d)` is an edge occurring `d` microseconds after the previous
transition, with the pin reading `pinHigh` after the edge. -/
def runDelays (s : State) : List (Bool × Nat) → State
  | [] => s
  | (pinHigh, d) :: rest =>
      runDelays (handleInterrupt pinHigh ((s.lastTransitionTime + d) % w32) s) rest

/-- Sum of all inter-transition delays of a transition sequence. -/
def sumDelays : List (Bool × Nat) → Nat
  | [] => 0
  | (_, d) :: rest => d + sumDelays rest

/-- Sum of the delays attributed to `lowTime`: those whose edge leaves the pin
reading HIGH. -/
def sumLowSide : List (Bool × Nat) → Nat
  | [] => 0
  | (true, d) :: rest => d + sumLowSide rest
  | (false, _) :: rest => sumLowSide rest

/-- Sum of the delays attributed to `highTime`: those whose edge leaves the pin
reading LOW. -/
def sumHighSide : List (Bool × Nat) → Nat
  | [] => 0
  | (true, _) :: rest => sumHighSide rest
  | (false, d) :: rest => d + sumHighSide rest

/-- Run a sequence of events while tracking the anchor of the current report
window: the value `lastTransitionTime` had when the accumulators were last
reset (a firing tick moves the anchor to the then-current
`lastTransitionTime`, which the reset does not touch). -/
def runAnchor (s : State) (anch : Nat) : List Ev → State × Nat
  | [] => (s, anch)
  | .irq pinHigh t :: es => runAnchor (handleInterrupt pinHigh t s) anch es
  | .tick t1 t2 :: es =>
      runAnchor (loopStep t1 t2 s).1
        (if 250 ≤ sub32 t1 s.lastPrintTime then s.lastTransitionTime else anch) es

/-- The provable shape of the spec's §3 invariant: the accumulated
`highTime + lowTime` equals, modulo `2^32`, the time spanned from the report
window's anchor transition to the most recent transition. -/
def ReportInv (s : State) (anch : Nat) : Prop :=
  (s.highTime + s.lowTime) % w32 = sub32 s.lastTransitionTime anch

/-- An event on a single microsecond timeline: an interrupt at microsecond
`tus`, or a `loop` iteration at microsecond `tus` (both `millis()` reads of
that iteration then return `tus / 1000`). -/
inductive GEv where
  | irqUs (pinHigh : Bool) (tus : Nat)
  | tickUs (tus : Nat)

/-- One microsecond-timeline event; alongside the program state it carries a
ghost value, the microsecond time of the most recent completed report cycle,
so that "elapsed time since the last report" is measurable. -/
def stepUs : State × Nat → GEv → (State × Nat) × Option ℚ
  | (s, rep), .irqUs pinHigh tus => ((handleInterrupt pinHigh tus s, rep), none)
  | (s, rep), .tickUs tus =>
      let r := loopStep (tus / 1000) (tus / 1000) s
      ((r.1, if 250 ≤ sub32 (tus / 1000) s.lastPrintTime then tus else rep), r.2)

/-- Run a sequence of microsecond-timeline events, collecting emitted lines. -/
def runUs : State × Nat → List GEv → (State × Nat) × List ℚ
  | p, [] => (p, [])
  | p, e :: es =>
      let r := stepUs p e
      let rest := runUs r.1 es
      (rest.1, r.2.toList ++ rest.2)

/-- Modelled from the spec, §4.2: the report algorithm as the spec words it —
snapshot `highTime` and `lowTime` into locals, compute the total and the duty
cycle from the snapshotted values, with a single `now_ms` clock reading. -/
def reporterSpec (now_ms : Nat) (s : State) : State × Option ℚ :=
  if 250 ≤ sub32 now_ms s.lastPrintTime then
    let high := s.highTime % w32
    let low := s.lowTime % w32
    let total := (high + low) % w32
    let out : Option ℚ :=
      if total = 0 then none
      else some ((high : ℚ) / ((total : Nat) : ℚ) * 100 * (33 / 10))
    ({ s with lastPrintTime := now_ms % w32, highTime := 0, lowTime := 0 }, out)
  else (s, none)

/-- Microsecond-timeline trace refuting the literal elapsed-time reading of the
§3 invariant: an edge at 100 ms, a report at 250 ms, then an edge at 300 ms. -/
def c2Trace : List GEv := [.irqUs false 100000, .tickUs 250000, .irqUs true 300000]

/-- Event trace overflowing the `highTime + lowTime` sum: 4000 s of HIGH and
1000 s of LOW accumulate before the first report fires. -/
def c10Trace : List Ev :=
  [.irq false 4000000000, .irq true 705032704, .tick 250 250]

/-- An interrupt whose timestamp is `d` microseconds after the stored
`lastTransitionTime` computes exactly the delta `d`, accumulated into
`lowTime` (pin reading HIGH after the edge). -/
lemma handleInterrupt_true_delay (s : State) (d : Nat) :
    handleInterrupt true ((s.lastTransitionTime + d) % w32) s
      = { s with lowTime := (s.lowTime + d) % w32,
                 lastTransitionTime := (s.lastTransitionTime + d) % w32 } := by
  apply State.ext <;> simp [handleInterrupt, add32, sub32, w32] <;> try omega

/-- An interrupt whose timestamp is `d` microseconds after the stored
`lastTransitionTime` computes exactly the delta `d`, accumulated into
`highTime` (pin reading LOW after the edge). -/
lemma handleInterrupt_false_delay (s : State) (d : Nat) :
    handleInterrupt false ((s.lastTransitionTime + d) % w32) s
      = { s with highTime := (s.highTime + d) % w32,
                 lastTransitionTime := (s.lastTransitionTime + d) % w32 } := by
  apply State.ext <;> simp [handleInterrupt, add32, sub32, w32] <;> try omega

/-- Claim C1: after any sequence of transitions with given inter-transition delays,
`highTime + lowTime` equals the sum of all delays modulo `2^32`, each delta
landing in `lowTime` when the pin reads HIGH after the edge and in `highTime`
when it reads LOW — in particular for any alternating high/low input. -/
theorem c1_accumulation (ds : List (Bool × Nat)) (s : State)
    (hh : s.highTime < w32) (hl : s.lowTime < w32) :
    (runDelays s ds).lowTime = (s.lowTime + sumLowSide ds) % w32 ∧
    (runDelays s ds).highTime = (s.highTime + sumHighSide ds) % w32 ∧
    ((runDelays s ds).highTime + (runDelays s ds).lowTime) % w32
      = (s.highTime + s.lowTime + sumDelays ds) % w32 := by
  induction ds generalizing s with
  | nil =>
      simp only [runDelays, sumLowSide, sumHighSide, sumDelays, w32] at *
      omega
  | cons p rest ih =>
      obtain ⟨pinHigh, d⟩ := p
      cases pinHigh with
      | true =>
          rw [runDelays, handleInterrupt_true_delay]
          obtain ⟨e1, e2, e3⟩ := ih
            { s with lowTime := (s.lowTime + d) % w32,
                     lastTransitionTime := (s.lastTransitionTime + d) % w32 }
            hh (Nat.mod_lt _ (by decide))
          dsimp only at e1 e2 e3 ⊢
          simp only [sumLowSide, sumHighSide, sumDelays, w32] at *
          omega
      | false =>
          rw [runDelays, handleInterrupt_false_delay]
          obtain ⟨e1, e2, e3⟩ := ih
            { s with highTime := (s.highTime + d) % w32,
                     lastTransitionTime := (s.lastTransitionTime + d) % w32 }
            (Nat.mod_lt _ (by decide)) hl
          dsimp only at e1 e2 e3 ⊢
          simp only [sumLowSide, sumHighSide, sumDelays, w32] at *
          omega

/-- Witness for C1 at an alternating three-edge sequence from the initial
state. -/
theorem c1_accumulation_witness :
    (runDelays initialState [(true, 30), (false, 70), (true, 30)]).lowTime
        = (initialState.lowTime + sumLowSide [(true, 30), (false, 70), (true, 30)]) % w32 ∧
    (runDelays initialState [(true, 30), (false, 70), (true, 30)]).highTime
        = (initialState.highTime + sumHighSide [(true, 30), (false, 70), (true, 30)]) % w32 ∧
    ((runDelays initialState [(true, 30), (false, 70), (true, 30)]).highTime
        + (runDelays initialState [(true, 30), (false, 70), (true, 30)]).lowTime) % w32
      = (initialState.highTime + initialState.lowTime
          + sumDelays [(true, 30), (false, 70), (true, 30)]) % w32 :=
  c1_accumulation [(true, 30), (false, 70), (true, 30)] initialState
    (by decide) (by decide)

/-- Claim C2, amended: for every interleaving of interrupts and loop
iterations, `highTime + lowTime` (mod `2^32`) equals the 32-bit distance from
the report window's anchor (the `lastTransitionTime` held at the last reset)
to the current `lastTransitionTime` — the time spanned by the transitions
processed since the last report cycle, not the full elapsed time. -/
theorem c2_anchored_invariant (es : List Ev) (s : State) (anch : Nat)
    (h : ReportInv s anch) :
    ReportInv (runAnchor s anch es).1 (runAnchor s anch es).2 := by
  induction es generalizing s anch with
  | nil => exact h
  | cons e es ih =>
      cases e with
      | irq pinHigh t =>
          rw [runAnchor]
          apply ih
          cases pinHigh <;>
            · simp [ReportInv, handleInterrupt, add32, sub32, w32] at h ⊢
              omega
      | tick t1 t2 =>
          rw [runAnchor]
          by_cases hf : 250 ≤ sub32 t1 s.lastPrintTime
          · apply ih
            simp only [ReportInv, loopStep, if_pos hf]
            simp only [sub32, w32]
            omega
          · apply ih
            simp only [loopStep, if_neg hf]
            exact h

/-- Witness for C2's amended invariant on a concrete two-event run. -/
theorem c2_anchored_invariant_witness :
    ReportInv (runAnchor initialState 0 [Ev.irq true 100, Ev.tick 250 250]).1
      (runAnchor initialState 0 [Ev.irq true 100, Ev.tick 250 250]).2 :=
  c2_anchored_invariant [Ev.irq true 100, Ev.tick 250 250] initialState 0
    (by norm_num [ReportInv, sub32, w32, initialState])

/-- Counterexample to C2 as stated: on a single microsecond timeline, an edge
at 100 ms, an emitting report at 250 ms and an edge at 300 ms leave
`highTime + lowTime = 200000` µs, while the elapsed time since the last
report, at the 300 ms edge, is `300000 - 250000 = 50000` µs. -/
theorem c2_counterexample :
    ((runUs (initialState, 0) c2Trace).1.1.highTime
        + (runUs (initialState, 0) c2Trace).1.1.lowTime) % w32 = 200000 ∧
    (runUs (initialState, 0) c2Trace).1.2 = 250000 ∧
    (runUs (initialState, 0) c2Trace).2 = [330] ∧
    (200000 : Nat) ≠ 300000 - 250000 := by
  norm_num [runUs, stepUs, c2Trace, handleInterrupt, loopStep, sub32, add32, w32, initialState]

/-- Claim C3: whenever a report fires with positive total, the emitted value
equals `(highTime / total) * 100 * 3.3` in exact arithmetic; in particular
`highTime = 7500, lowTime = 2500` emits `247.5`, `10000/0` emits `330` and
`0/10000` emits `0`. -/
theorem c3_duty_scaling :
    (∀ (s : State) (t1 t2 : Nat), 250 ≤ sub32 t1 s.lastPrintTime →
        0 < add32 s.highTime s.lowTime →
        (loopStep t1 t2 s).2
          = some (((s.highTime % w32 : Nat) : ℚ)
              / ((add32 s.highTime s.lowTime : Nat) : ℚ) * 100 * (33 / 10))) ∧
    (loopStep 250 250 ⟨7500, 2500, 0, 0⟩).2 = some (2475 / 10) ∧
    (loopStep 250 250 ⟨10000, 0, 0, 0⟩).2 = some 330 ∧
    (loopStep 250 250 ⟨0, 10000, 0, 0⟩).2 = some 0 := by
  refine ⟨?_, ?_, ?_, ?_⟩
  · intro s t1 t2 h1 h2
    simp only [loopStep, if_pos h1, if_pos h2]
  · norm_num [loopStep, sub32, add32, w32]
  · norm_num [loopStep, sub32, add32, w32]
  · norm_num [loopStep, sub32, add32, w32]

/-- Witness for C3's universally quantified conjunct at `7500/2500`. -/
theorem c3_duty_scaling_witness :
    (loopStep 250 250 ⟨7500, 2500, 0, 0⟩).2
      = some (((State.highTime ⟨7500, 2500, 0, 0⟩ % w32 : Nat) : ℚ)
          / ((add32 (State.highTime ⟨7500, 2500, 0, 0⟩) (State.lowTime ⟨7500, 2500, 0, 0⟩) : Nat) : ℚ)
          * 100 * (33 / 10)) :=
  c3_duty_scaling.1 ⟨7500, 2500, 0, 0⟩ 250 250 (by decide) (by decide)

/-- Claim C4: on a loop iteration where the 250 ms cadence fires, exactly one
line is emitted if and only if the accumulated total is strictly positive (the
output is `none`, and the guarded division is never evaluated, when the total
is zero). -/
theorem c4_emission_iff (s : State) (t1 t2 : Nat)
    (h : 250 ≤ sub32 t1 s.lastPrintTime) :
    (loopStep t1 t2 s).2.isSome = true ↔ 0 < add32 s.highTime s.lowTime := by
  simp only [loopStep, if_pos h]
  by_cases h2 : 0 < add32 s.highTime s.lowTime <;> simp [h2]

/-- Witness for C4 at a firing iteration with positive total. -/
theorem c4_emission_iff_witness :
    ((loopStep 250 250 ⟨7500, 2500, 0, 0⟩).2.isSome = true
      ↔ 0 < add32 (State.highTime ⟨7500, 2500, 0, 0⟩) (State.lowTime ⟨7500, 2500, 0, 0⟩)) :=
  c4_emission_iff ⟨7500, 2500, 0, 0⟩ 250 250 (by decide)

/-- Claim C5: immediately after any loop iteration in which the cadence fired
— emitted or suppressed — both accumulators read zero. -/
theorem c5_reset_after_report (s : State) (t1 t2 : Nat)
    (h : 250 ≤ sub32 t1 s.lastPrintTime) :
    (loopStep t1 t2 s).1.highTime = 0 ∧ (loopStep t1 t2 s).1.lowTime = 0 := by
  simp [loopStep, if_pos h]

/-- Witness for C5 at a firing iteration with suppressed emission. -/
theorem c5_reset_after_report_witness :
    (loopStep 250 999 initialState).1.highTime = 0 ∧
    (loopStep 250 999 initialState).1.lowTime = 0 :=
  c5_reset_after_report initialState 250 999 (by decide)

/-- Claim C6: an iteration observing less than 250 ms elapsed leaves the state
unchanged and emits nothing, and two reporting steps whose clock readings are
monotone and less than 250 ms apart never both emit. -/
theorem c6_cadence_gating :
    (∀ (s : State) (t1 t2 : Nat), sub32 t1 s.lastPrintTime < 250 →
        loopStep t1 t2 s = (s, none)) ∧
    (∀ (s : State) (t1 t2 t3 t4 : Nat), t1 ≤ t2 → t2 ≤ t3 → t3 < w32 →
        t3 - t1 < 250 →
        ¬((loopStep t1 t2 s).2.isSome = true ∧
          (loopStep t3 t4 (loopStep t1 t2 s).1).2.isSome = true)) := by
  constructor
  · intro s t1 t2 h
    simp [loopStep, not_le.2 h]
  · intro s t1 t2 t3 t4 h12 h23 h3w h31
    by_cases hf : 250 ≤ sub32 t1 s.lastPrintTime
    · rintro ⟨-, h2⟩
      set s2 := (loopStep t1 t2 s).1 with hs2
      have hlpt : s2.lastPrintTime = t2 % w32 := by
        rw [hs2]
        simp [loopStep, if_pos hf]
      have hcond : ¬ 250 ≤ sub32 t3 s2.lastPrintTime := by
        rw [hlpt]
        simp only [sub32, w32] at h3w ⊢
        omega
      simp only [loopStep, if_neg hcond] at h2
      simp at h2
    · rintro ⟨h1, -⟩
      simp [loopStep, hf] at h1

/-- Witness for C6: a no-op iteration at 100 ms, and two iterations 249 ms
apart that do not both emit. -/
theorem c6_cadence_gating_witness :
    loopStep 100 100 ⟨1, 2, 3, 0⟩ = (⟨1, 2, 3, 0⟩, none) ∧
    ¬((loopStep 250 251 ⟨5, 5, 0, 0⟩).2.isSome = true ∧
      (loopStep 499 499 (loopStep 250 251 ⟨5, 5, 0, 0⟩).1).2.isSome = true) :=
  ⟨c6_cadence_gating.1 ⟨1, 2, 3, 0⟩ 100 100 (by decide),
   c6_cadence_gating.2 ⟨5, 5, 0, 0⟩ 250 251 499 499 (by decide) (by decide)
     (by decide) (by decide)⟩

/-- Counterexample to C7 as stated: with the check reading `millis() = 250`
and the clock advancing to 251 before line 40's second read, `lastPrintTime`
becomes 251, not the 250 the comparison used. -/
theorem c7_counterexample :
    (loopStep 250 251 initialState).1.lastPrintTime = 251 ∧ (251 : Nat) ≠ 250 := by
  norm_num [loopStep, sub32, w32, initialState]

/-- Claim C7, amended: on every cadence-firing iteration `lastPrintTime` is
set to the second, separate `millis()` reading of line 40; it equals the
comparison's reading only when the clock did not advance between the two
reads. -/
theorem c7_lastPrintTime_update (s : State) (t1 t2 : Nat)
    (h : 250 ≤ sub32 t1 s.lastPrintTime) :
    (loopStep t1 t2 s).1.lastPrintTime = t2 % w32 := by
  simp [loopStep, if_pos h]

/-- Witness for C7's amended statement when both reads return 250. -/
theorem c7_lastPrintTime_update_witness :
    (loopStep 250 250 initialState).1.lastPrintTime = 250 % w32 :=
  c7_lastPrintTime_update initialState 250 250 (by decide)

/-- Claim C8: the spec's snapshot-based report algorithm and the code's
total-only-local report produce the same output and the same final state in
the sequential (non-preempted) model, for every state and clock reading. -/
theorem c8_snapshot_equivalence (s : State) (t : Nat) :
    reporterSpec t s = loopStep t t s := by
  by_cases hf : 250 ≤ sub32 t s.lastPrintTime
  · simp only [reporterSpec, loopStep, if_pos hf, add32, Nat.mod_add_mod, Nat.add_mod_mod]
    rcases Nat.eq_zero_or_pos ((s.highTime + s.lowTime) % w32) with h0 | h0
    · simp [h0]
    · simp [h0, h0.ne']
  · simp only [reporterSpec, loopStep, if_neg hf]

/-- Claim C9: `handleInterrupt` updates exactly one accumulator (the one
matching the pin reading), always sets `lastTransitionTime` to the current
timestamp, and never touches `lastPrintTime`; conversely the reporter never
mutates `lastTransitionTime`. -/
theorem c9_frame_conditions (pinHigh : Bool) (t t1 t2 : Nat) (s : State) :
    (handleInterrupt pinHigh t s).lastTransitionTime = t % w32 ∧
    (handleInterrupt pinHigh t s).lastPrintTime = s.lastPrintTime ∧
    (handleInterrupt true t s).highTime = s.highTime ∧
    (handleInterrupt true t s).lowTime
      = add32 s.lowTime (sub32 (t % w32) s.lastTransitionTime) ∧
    (handleInterrupt false t s).lowTime = s.lowTime ∧
    (handleInterrupt false t s).highTime
      = add32 s.highTime (sub32 (t % w32) s.lastTransitionTime) ∧
    (loopStep t1 t2 s).1.lastTransitionTime = s.lastTransitionTime := by
  refine ⟨?_, ?_, rfl, rfl, rfl, rfl, ?_⟩
  · cases pinHigh <;> rfl
  · cases pinHigh <;> rfl
  · by_cases hf : 250 ≤ sub32 t1 s.lastPrintTime <;> simp [loopStep, hf]

/-- Claim C10, amended: provided `highTime + lowTime` does not overflow
32 bits at report time, every emitted value lies in `[0, 330]`. -/
theorem c10_output_range (s : State) (t1 t2 : Nat)
    (hnw : s.highTime + s.lowTime < w32) (q : ℚ)
    (hq : (loopStep t1 t2 s).2 = some q) : 0 ≤ q ∧ q ≤ 330 := by
  by_cases hf : 250 ≤ sub32 t1 s.lastPrintTime
  · have htot : add32 s.highTime s.lowTime = s.highTime + s.lowTime := by
      simp only [add32, w32] at *
      omega
    have hmod : s.highTime % w32 = s.highTime := Nat.mod_eq_of_lt (by omega)
    simp only [loopStep, if_pos hf, htot, hmod] at hq
    by_cases h0 : 0 < s.highTime + s.lowTime
    · simp only [if_pos h0, Option.some.injEq] at hq
      have hTpos : (0 : ℚ) < ((s.highTime + s.lowTime : Nat) : ℚ) := by
        exact_mod_cast h0
      have hle : ((s.highTime : Nat) : ℚ) ≤ ((s.highTime + s.lowTime : Nat) : ℚ) := by
        exact_mod_cast Nat.le_add_right _ _
      have hx0 : (0 : ℚ) ≤ ((s.highTime : Nat) : ℚ) := by positivity
      have hd1 : ((s.highTime : Nat) : ℚ) / ((s.highTime + s.lowTime : Nat) : ℚ) ≤ 1 :=
        div_le_one_of_le₀ hle (le_of_lt hTpos)
      have hd0 : (0 : ℚ) ≤ ((s.highTime : Nat) : ℚ) / ((s.highTime + s.lowTime : Nat) : ℚ) :=
        div_nonneg hx0 (le_of_lt hTpos)
      constructor
      · rw [← hq]
        positivity
      · rw [← hq]
        nlinarith [hd0, hd1]
    · simp [h0] at hq
  · simp [loopStep, hf] at hq

/-- Witness for C10's amended range bound at `75/25`, emitting `247.5`. -/
theorem c10_output_range_witness :
    (0 : ℚ) ≤ 495 / 2 ∧ (495 / 2 : ℚ) ≤ 330 :=
  c10_output_range ⟨75, 25, 0, 0⟩ 250 250 (by decide) (495 / 2)
    (by norm_num [loopStep, sub32, add32, w32])

/-- Counterexample to C10 as stated: from the initial state, 4000 s of HIGH
and 1000 s of LOW overflow `highTime + lowTime`, and the single line emitted
at the first report exceeds 330. -/
theorem c10_counterexample :
    (run initialState c10Trace).2.length = 1 ∧
    330 < (run initialState c10Trace).2.headI := by
  norm_num [run, step, c10Trace, handleInterrupt, loopStep, sub32, add32, w32,
    initialState]
